import Mathlib

/-!
Verification of the platinum breakout trading bot core
(modules: strategy, risk_management, state, config, main orchestrator).

Shallow embedding conventions:
* Python `Decimal` prices are modelled as `ℚ`.
* Python `dict` keyed by session id is modelled as an association list
  `List (Nat × β)` with explicit lookup/update functions that mirror the
  membership checks performed by the code.
* Timezone-aware datetimes are modelled as a day count plus seconds-of-day
  in local time (no DST arithmetic occurs inside the verified fragments).
* Counts read back from the persisted JSON file are modelled as `ℤ`,
  since JSON integers are unbounded and possibly negative.
-/

/-- Reference levels for a session: the prior periods high and low. -/
structure Levels where
  high : ℚ
  low : ℚ
deriving DecidableEq, Repr

/-- `config.SessionConfig`: static per-session trading window configuration. -/
structure SessionConfig where
  name : String
  ref_hour : Nat
  start_hour : Nat
  end_hour : Nat
  target_points : ℚ
  stop_points : ℚ
deriving DecidableEq, Repr

/-- The shipped session table `config.SESSIONS`: a single London session. -/
def SESSIONS : List (Nat × SessionConfig) :=
  [(22, { name := "London", ref_hour := 22, start_hour := 23, end_hour := 23,
          target_points := 1/5, stop_points := 1/2 })]

/-- `state.SessionTradeState`: per-session trade counter and direction list. -/
structure SessionTradeState where
  count : ℤ := 0
  directions : List String := []
deriving DecidableEq, Repr

/-- `state.ActiveTrade`: one open bracket trade. -/
structure ActiveTrade where
  side : String
  tp : ℚ
  sl : ℚ
  sess_name : String
  cutoff_h : Nat
  sess_id : Nat
  entry_price : ℚ
deriving DecidableEq, Repr

/-- `strategy.EntrySignal`. -/
structure EntrySignal where
  side : String
  price : ℚ
deriving DecidableEq, Repr

/-- `strategy.ExitSignal`. -/
structure ExitSignal where
  reason : String
  trade : ActiveTrade
  exit_price : ℚ
deriving DecidableEq, Repr

/-- `strategy.BreakoutStrategy.check_entry_signal`: close strictly above the
high level signals LONG at the close, strictly below the low signals SHORT. -/
def check_entry_signal (close_price high_level low_level : ℚ) :
    Option EntrySignal :=
  if close_price > high_level then
    some { side := "LONG", price := close_price }
  else if close_price < low_level then
    some { side := "SHORT", price := close_price }
  else none

/-- `strategy.BreakoutStrategy.check_exit_signals`: cutoff hour first,
then target/stop for LONG, mirrored for any other side. -/
def check_exit_signals (trade : ActiveTrade) (close_price : ℚ)
    (current_hour : Nat) : Option ExitSignal :=
  if current_hour ≥ trade.cutoff_h then
    some { reason := "CUTOFF", trade := trade, exit_price := close_price }
  else if trade.side = "LONG" then
    if close_price ≥ trade.tp then
      some { reason := "TARGET", trade := trade, exit_price := close_price }
    else if close_price ≤ trade.sl then
      some { reason := "STOP", trade := trade, exit_price := close_price }
    else none
  else
    if close_price ≤ trade.tp then
      some { reason := "TARGET", trade := trade, exit_price := close_price }
    else if close_price ≥ trade.sl then
      some { reason := "STOP", trade := trade, exit_price := close_price }
    else none

/-- Association-list lookup used to model Python `dict.get` on
session-id-keyed dictionaries. -/
def lookupSid {β : Type} : List (Nat × β) → Nat → Option β
  | [], _ => none
  | (k, v) :: rest, key => if k = key then some v else lookupSid rest key

/-- Association-list update of an existing key, used to model Python
`dict[k] = v` when the key is known to be present. Absent keys are
left untouched. -/
def updateSid {β : Type} (m : List (Nat × β)) (key : Nat) (v : β) :
    List (Nat × β) :=
  m.map fun p => if p.1 = key then (key, v) else p

/-- Association-list insert-or-update, used to model Python `dict[k] = v`
when the key may be absent (insertion order appends at the end). -/
def insertSid {β : Type} : List (Nat × β) → Nat → β → List (Nat × β)
  | [], key, v => [(key, v)]
  | (k, w) :: rest, key, v =>
    if k = key then (key, v) :: rest else (k, w) :: insertSid rest key v

/-- Association-list `dict.setdefault`: keep an existing binding, append a
default binding otherwise. -/
def setdefaultSid {β : Type} (m : List (Nat × β)) (key : Nat) (v : β) :
    List (Nat × β) :=
  match lookupSid m key with
  | some _ => m
  | none => m ++ [(key, v)]

/-- Local timezone datetime: whole days since the epoch (a Thursday, as for
Unix day zero) plus seconds of day. -/
structure BotDateTime where
  days : Nat
  sod : Nat
deriving DecidableEq, Repr

/-- Absolute second count of a datetime, for comparisons and differences. -/
def BotDateTime.toSec (t : BotDateTime) : ℤ :=
  (t.days : ℤ) * 86400 + (t.sod : ℤ)

/-- Python `datetime.weekday()` (Monday = 0); day zero is a Thursday. -/
def BotDateTime.weekday (t : BotDateTime) : Nat :=
  (t.days + 3) % 7

/-- The hour component of a datetime. -/
def BotDateTime.hour (t : BotDateTime) : Nat :=
  t.sod / 3600

/-- `risk_management.RiskManager.is_in_session_window`: half-open hour
range test. -/
def is_in_session_window (cfg : SessionConfig) (current_hour : Nat) : Bool :=
  cfg.start_hour ≤ current_hour && current_hour < cfg.end_hour

/-- `risk_management.RiskManager.is_trade_eligible`: requires a counter
below 2 for the session and an eligibility time that has already passed. -/
def is_trade_eligible (session_id : Nat)
    (trades_taken : List (Nat × SessionTradeState)) (now : BotDateTime)
    (eligible_time : Option BotDateTime) : Bool :=
  match lookupSid trades_taken session_id with
  | none => false
  | some session_trades =>
    if session_trades.count ≥ 2 then false
    else
      match eligible_time with
      | none => false
      | some et => if now.toSec < et.toSec then false else true

/-- `risk_management.RiskManager.can_take_direction`: no repeat direction,
at most two trades per session. -/
def can_take_direction (session_id : Nat) (direction : String)
    (trades_taken : List (Nat × SessionTradeState)) : Bool :=
  match lookupSid trades_taken session_id with
  | none => false
  | some session_trades =>
    match session_trades.directions with
    | [] => true
    | [d0] => direction ≠ d0
    | _ :: _ :: _ => false

/-- C5 -- `check_exit_signals` returns at most one signal: at or past the
cutoff hour it is CUTOFF unconditionally; before the cutoff, a LONG trade
with stop below target exits TARGET exactly when close ≥ target and STOP
exactly when close ≤ stop, a SHORT trade with target below stop exits
TARGET exactly when close ≤ target and STOP exactly when close ≥ stop,
and otherwise no signal fires. -/
theorem exit_signals_priority_and_characterisation
    (trade : ActiveTrade) (close : ℚ) (h : Nat) :
    (h ≥ trade.cutoff_h →
      check_exit_signals trade close h =
        some { reason := "CUTOFF", trade := trade, exit_price := close }) ∧
    (h < trade.cutoff_h → trade.side = "LONG" → trade.sl < trade.tp →
      ((check_exit_signals trade close h =
          some { reason := "TARGET", trade := trade, exit_price := close } ↔
        close ≥ trade.tp) ∧
       (check_exit_signals trade close h =
          some { reason := "STOP", trade := trade, exit_price := close } ↔
        close ≤ trade.sl) ∧
       (check_exit_signals trade close h = none ↔
        trade.sl < close ∧ close < trade.tp))) ∧
    (h < trade.cutoff_h → trade.side = "SHORT" → trade.tp < trade.sl →
      ((check_exit_signals trade close h =
          some { reason := "TARGET", trade := trade, exit_price := close } ↔
        close ≤ trade.tp) ∧
       (check_exit_signals trade close h =
          some { reason := "STOP", trade := trade, exit_price := close } ↔
        close ≥ trade.sl) ∧
       (check_exit_signals trade close h = none ↔
        trade.tp < close ∧ close < trade.sl))) := by
  refine ⟨fun hc => by simp [check_exit_signals, hc],
          fun hc hside hord => ?_, fun hc hside hord => ?_⟩
  · have hnc : ¬ h ≥ trade.cutoff_h := Nat.not_le.mpr hc
    unfold check_exit_signals
    rw [if_neg hnc, if_pos hside]
    by_cases h1 : close ≥ trade.tp
    · rw [if_pos h1]
      exact ⟨⟨fun _ => h1, fun _ => rfl⟩,
        ⟨fun he => absurd he (by simp), fun hle => False.elim (by linarith)⟩,
        ⟨fun he => absurd he (by simp),
         fun hb => False.elim (by linarith [hb.2])⟩⟩
    · rw [if_neg h1]
      by_cases h2 : close ≤ trade.sl
      · rw [if_pos h2]
        exact ⟨⟨fun he => absurd he (by simp), fun hge => absurd hge h1⟩,
          ⟨fun _ => h2, fun _ => rfl⟩,
          ⟨fun he => absurd he (by simp),
           fun hb => False.elim (by linarith [hb.1])⟩⟩
      · rw [if_neg h2]
        exact ⟨⟨fun he => absurd he (by simp), fun hge => absurd hge h1⟩,
          ⟨fun he => absurd he (by simp), fun hle => absurd hle h2⟩,
          ⟨fun _ => ⟨by linarith, by linarith⟩, fun _ => rfl⟩⟩
  · have hnc : ¬ h ≥ trade.cutoff_h := Nat.not_le.mpr hc
    have hsl : ¬ trade.side = "LONG" := by simp [hside]
    unfold check_exit_signals
    rw [if_neg hnc, if_neg hsl]
    by_cases h1 : close ≤ trade.tp
    · rw [if_pos h1]
      exact ⟨⟨fun _ => h1, fun _ => rfl⟩,
        ⟨fun he => absurd he (by simp), fun hge => False.elim (by linarith)⟩,
        ⟨fun he => absurd he (by simp),
         fun hb => False.elim (by linarith [hb.1])⟩⟩
    · rw [if_neg h1]
      by_cases h2 : close ≥ trade.sl
      · rw [if_pos h2]
        exact ⟨⟨fun he => absurd he (by simp), fun hle => absurd hle h1⟩,
          ⟨fun _ => h2, fun _ => rfl⟩,
          ⟨fun he => absurd he (by simp),
           fun hb => False.elim (by linarith [hb.2])⟩⟩
      · rw [if_neg h2]
        exact ⟨⟨fun he => absurd he (by simp), fun hle => absurd hle h1⟩,
          ⟨fun he => absurd he (by simp), fun hge => absurd hge h2⟩,
          ⟨fun _ => ⟨by linarith, by linarith⟩, fun _ => rfl⟩⟩

/-- C5 witness: a concrete LONG trade with cutoff hour 8 evaluated at hour 8
with the close at the target still exits CUTOFF. -/
theorem exit_signals_priority_witness :
    (8 ≥ 8 ∧
      check_exit_signals
        { side := "LONG", tp := 101, sl := 95, sess_name := "London",
          cutoff_h := 8, sess_id := 22, entry_price := 100 } 101 8 =
        some { reason := "CUTOFF",
               trade := { side := "LONG", tp := 101, sl := 95,
                          sess_name := "London", cutoff_h := 8,
                          sess_id := 22, entry_price := 100 },
               exit_price := 101 }) :=
  ⟨by decide,
    (exit_signals_priority_and_characterisation
      { side := "LONG", tp := 101, sl := 95, sess_name := "London",
        cutoff_h := 8, sess_id := 22, entry_price := 100 } 101 8).1
      (by decide)⟩

/-- C6 -- `check_entry_signal` with high above low: LONG at the close exactly
when the close is strictly above the high, SHORT exactly when strictly below
the low, and no signal exactly when the close lies between the levels,
equality with either level included. -/
theorem entry_signal_characterisation (close high low : ℚ) (hlt : low < high) :
    (check_entry_signal close high low =
        some { side := "LONG", price := close } ↔ high < close) ∧
    (check_entry_signal close high low =
        some { side := "SHORT", price := close } ↔ close < low) ∧
    (check_entry_signal close high low = none ↔
        low ≤ close ∧ close ≤ high) := by
  unfold check_entry_signal
  by_cases h1 : close > high
  · rw [if_pos h1]
    exact ⟨⟨fun _ => h1, fun _ => rfl⟩,
      ⟨fun he => absurd he (by simp), fun hl => False.elim (by linarith)⟩,
      ⟨fun he => absurd he (by simp),
       fun hb => False.elim (by linarith [hb.2])⟩⟩
  · rw [if_neg h1]
    by_cases h2 : close < low
    · rw [if_pos h2]
      exact ⟨⟨fun he => absurd he (by simp), fun hg => absurd hg h1⟩,
        ⟨fun _ => h2, fun _ => rfl⟩,
        ⟨fun he => absurd he (by simp),
         fun hb => False.elim (by linarith [hb.1])⟩⟩
    · rw [if_neg h2]
      exact ⟨⟨fun he => absurd he (by simp), fun hg => absurd hg h1⟩,
        ⟨fun he => absurd he (by simp), fun hl => absurd hl h2⟩,
        ⟨fun _ => ⟨le_of_not_gt h2, le_of_not_gt h1⟩, fun _ => rfl⟩⟩

/-- C6 witness: with levels high 100 and low 90, a close of 101 yields a
LONG entry signal at 101. -/
theorem entry_signal_characterisation_witness :
    (90 : ℚ) < 100 ∧
    check_entry_signal 101 100 90 = some { side := "LONG", price := 101 } :=
  ⟨by norm_num,
    ((entry_signal_characterisation 101 100 90 (by norm_num)).1).mpr
      (by norm_num)⟩

/-- C7 -- `can_take_direction` on a counter satisfying the count/length
invariant: with zero trades taken any direction is allowed; with exactly one
trade taken a direction is allowed exactly when it differs from the one
already taken; with two trades taken no direction is allowed. -/
theorem can_take_direction_characterisation (sid : Nat) (dir : String)
    (tt : List (Nat × SessionTradeState)) (st : SessionTradeState)
    (hst : lookupSid tt sid = some st)
    (hinv : st.count = st.directions.length) :
    (st.count = 0 → can_take_direction sid dir tt = true) ∧
    (∀ d0, st.count = 1 → st.directions = [d0] →
      (can_take_direction sid dir tt = true ↔ dir ≠ d0)) ∧
    (st.count = 2 → can_take_direction sid dir tt = false) := by
  refine ⟨fun h0 => ?_, fun d0 _ hd => ?_, fun h2 => ?_⟩
  · have hl : st.directions.length = 0 := by omega
    have hnil : st.directions = [] := List.eq_nil_of_length_eq_zero hl
    simp [can_take_direction, hst, hnil]
  · simp [can_take_direction, hst, hd]
  · have hl : st.directions.length = 2 := by omega
    obtain ⟨a, b, hab⟩ := List.length_eq_two.mp hl
    simp [can_take_direction, hst, hab]

/-- C7 witness: with one LONG trade already taken in session 22, the SHORT
direction is still allowed. -/
theorem can_take_direction_characterisation_witness :
    lookupSid [(22, ({ count := 1, directions := ["LONG"] } :
        SessionTradeState))] 22 =
      some { count := 1, directions := ["LONG"] } ∧
    can_take_direction 22 "SHORT"
      [(22, { count := 1, directions := ["LONG"] })] = true :=
  ⟨by decide,
    ((can_take_direction_characterisation 22 "SHORT"
        [(22, { count := 1, directions := ["LONG"] })]
        { count := 1, directions := ["LONG"] } (by decide)
        (by decide)).2.1 "LONG" (by decide) rfl).mpr (by decide)⟩

/-- `state.BotState`: the daily aggregate state owned by the orchestrator. -/
structure BotState where
  last_reset_date : Option String := none
  trades_taken : List (Nat × SessionTradeState) := []
  active_trades : List ActiveTrade := []
  ref_levels : List (Nat × Option Levels) := []
  session_trade_eligible_time : List (Nat × Option BotDateTime) := []
  fetch_attempted : List (Nat × Bool) := []
  scanning_started : List (Nat × Bool) := []
  reconnect_count : ℤ := 0
deriving DecidableEq, Repr

/-- The persisted JSON document written by `StateManager.save`, as a typed
record: exactly the six top-level keys the code serialises. There is no
field for the reconnect counter or the scanning flags. -/
structure StateFile where
  last_reset_date : Option String := none
  trades_taken : List (Nat × SessionTradeState) := []
  active_trades : List ActiveTrade := []
  ref_levels : List (Nat × Option Levels) := []
  session_trade_eligible_time : List (Nat × Option BotDateTime) := []
  fetch_attempted : List (Nat × Bool) := []
deriving DecidableEq, Repr

/-- `state.StateManager.init_session_maps`: give every configured session id
a default entry in each per-session map. -/
def init_session_maps (state : BotState) : List Nat → BotState
  | [] => state
  | sid :: rest =>
    init_session_maps
      { state with
        trades_taken :=
          setdefaultSid state.trades_taken sid { count := 0, directions := [] },
        ref_levels := setdefaultSid state.ref_levels sid none,
        session_trade_eligible_time :=
          setdefaultSid state.session_trade_eligible_time sid none,
        fetch_attempted := setdefaultSid state.fetch_attempted sid false,
        scanning_started := setdefaultSid state.scanning_started sid false }
      rest

/-- `state.StateManager.save`: the document written to disk (string
serialisation of prices and datetimes is modelled as the identity on the
typed values). Only the six listed fields are persisted. -/
def StateManager.save (state : BotState) : StateFile :=
  { last_reset_date := state.last_reset_date,
    trades_taken := state.trades_taken,
    active_trades := state.active_trades,
    ref_levels := state.ref_levels,
    session_trade_eligible_time := state.session_trade_eligible_time,
    fetch_attempted := state.fetch_attempted }

/-- `state.StateManager.load`: start from a fresh default state with
initialised session maps; return it unchanged when there is no file or the
stored `last_reset_date` is not the current date; otherwise copy the file
contents field by field (trade counters only for configured session ids,
reference levels and eligibility times only when non-null, fetch flags
unconditionally). The reconnect counter and scanning flags are never read
from the file. -/
def StateManager.load (session_ids : List Nat) (today : String)
    (file : Option StateFile) : BotState :=
  let fresh := init_session_maps {} session_ids
  match file with
  | none => fresh
  | some data =>
    if data.last_reset_date ≠ some today then fresh
    else
      { last_reset_date := some today,
        trades_taken :=
          data.trades_taken.foldl
            (fun m kv =>
              match lookupSid m kv.1 with
              | some _ => updateSid m kv.1 kv.2
              | none => m)
            fresh.trades_taken,
        active_trades := fresh.active_trades ++ data.active_trades,
        ref_levels :=
          data.ref_levels.foldl
            (fun m kv =>
              match kv.2 with
              | some lv => insertSid m kv.1 (some lv)
              | none => m)
            fresh.ref_levels,
        session_trade_eligible_time :=
          data.session_trade_eligible_time.foldl
            (fun m kv =>
              match kv.2 with
              | some t => insertSid m kv.1 (some t)
              | none => m)
            fresh.session_trade_eligible_time,
        fetch_attempted :=
          data.fetch_attempted.foldl
            (fun m kv => insertSid m kv.1 kv.2)
            fresh.fetch_attempted,
        scanning_started := fresh.scanning_started,
        reconnect_count := fresh.reconnect_count }

/-- `main.TradingBot._reset_daily_state`: the previous state is discarded
wholesale and replaced by a brand-new `BotState` carrying only the current
date, with freshly initialised session maps. -/
def reset_daily_state (_old : BotState) (today : String)
    (session_ids : List Nat) : BotState :=
  init_session_maps { last_reset_date := some today } session_ids

/-- `init_session_maps` only touches the five per-session maps: the reset
date, active-trade list and reconnect counter pass through unchanged. -/
theorem init_session_maps_fields (ids : List Nat) (s : BotState) :
    (init_session_maps s ids).last_reset_date = s.last_reset_date ∧
    (init_session_maps s ids).active_trades = s.active_trades ∧
    (init_session_maps s ids).reconnect_count = s.reconnect_count := by
  induction ids generalizing s with
  | nil => exact ⟨rfl, rfl, rfl⟩
  | cons i rest ih => exact ih _

/-- A persisted state file dated yesterday, with nontrivial counters,
active trades, levels and flags. -/
def staleFile : StateFile :=
  { last_reset_date := some "2026-10-11",
    trades_taken := [(22, { count := 2, directions := ["LONG", "SHORT"] })],
    active_trades :=
      [{ side := "LONG", tp := 101, sl := 95, sess_name := "London",
         cutoff_h := 23, sess_id := 22, entry_price := 100 }],
    ref_levels := [(22, some { high := 100, low := 90 })],
    session_trade_eligible_time := [(22, some { days := 20740, sod := 83100 })],
    fetch_attempted := [(22, true)] }

/-- C2 counterexample: loading a state file dated yesterday yields a state
whose `last_reset_date` is unset, not the current date, refuting the claim
that it equals the current date. -/
theorem load_stale_date_counterexample :
    (StateManager.load [22] "2026-10-12" (some staleFile)).last_reset_date ≠
      some "2026-10-12" ∧
    (StateManager.load [22] "2026-10-12" (some staleFile)).last_reset_date =
      none := by
  decide

/-- C2 (amended) -- loading a persisted state file whose `last_reset_date`
is not the current date returns the freshly initialised default state: every
file field (counters, active trades, levels, eligibility times, fetch flags)
is discarded, and `last_reset_date` is left at its default `none` rather
than being set to the current date. -/
theorem load_stale_date_returns_fresh_state (ids : List Nat) (today : String)
    (file : StateFile) (hdate : file.last_reset_date ≠ some today) :
    StateManager.load ids today (some file) = init_session_maps {} ids ∧
    (StateManager.load ids today (some file)).last_reset_date = none := by
  have h1 : StateManager.load ids today (some file) =
      init_session_maps {} ids := by
    simp only [StateManager.load]
    rw [if_pos hdate]
  exact ⟨h1, by rw [h1]; exact (init_session_maps_fields ids {}).1⟩

/-- C2 witness: the concrete yesterday-dated file is discarded wholesale. -/
theorem load_stale_date_returns_fresh_state_witness :
    staleFile.last_reset_date ≠ some "2026-10-12" ∧
    (StateManager.load [22] "2026-10-12" (some staleFile) =
        init_session_maps {} [22] ∧
      (StateManager.load [22] "2026-10-12" (some staleFile)).last_reset_date =
        none) :=
  ⟨by decide,
    load_stale_date_returns_fresh_state [22] "2026-10-12" staleFile
      (by decide)⟩

/-- A state file dated today whose session-22 counter is inconsistent:
count 5 against an empty directions list. -/
def inconsistentFile : StateFile :=
  { last_reset_date := some "2026-10-12",
    trades_taken := [(22, { count := 5, directions := [] })] }

/-- C10 -- `StateManager.load` does not re-establish the counter invariant:
a today-dated file whose session-22 entry has count 5 and an empty
directions list is loaded verbatim, count differing from the list length. -/
theorem load_keeps_inconsistent_counter :
    lookupSid
        (StateManager.load [22] "2026-10-12"
          (some inconsistentFile)).trades_taken 22 =
      some { count := 5, directions := [] } ∧
    ¬ ((5 : ℤ) = (([] : List String).length : ℤ)) := by
  decide

/-- C4 counterexample: `_reset_daily_state` starting from a state whose
reconnect counter is 5 yields a state whose reconnect counter is 0, so the
daily reset does not leave the counter unchanged. -/
theorem daily_reset_zeroes_reconnect_counterexample :
    ({ reconnect_count := 5 } : BotState).reconnect_count = 5 ∧
    (reset_daily_state { reconnect_count := 5 } "2026-10-12"
        [22]).reconnect_count = 0 := by
  constructor
  · rfl
  · exact (init_session_maps_fields [22] { last_reset_date := some "2026-10-12" }).2.2

/-- C4 (amended) -- the reconnect counter is not persisted: `save` writes
the same document whatever the counter holds, and `load` always returns a
state whose counter is 0 (so it is zeroed by a process restart). The daily
reset, however, replaces the whole state and therefore also zeroes the
reconnect counter, rather than leaving it unchanged. -/
theorem reconnect_counter_persistence_and_reset (old : BotState)
    (today : String) (ids : List Nat) (file : Option StateFile) :
    StateManager.save old = StateManager.save { old with reconnect_count := 0 } ∧
    (StateManager.load ids today file).reconnect_count = 0 ∧
    (reset_daily_state old today ids).reconnect_count = 0 := by
  refine ⟨rfl, ?_, ?_⟩
  · cases file with
    | none => exact (init_session_maps_fields ids {}).2.2
    | some data =>
      simp only [StateManager.load]
      by_cases hd : data.last_reset_date ≠ some today
      · rw [if_pos hd]
        exact (init_session_maps_fields ids {}).2.2
      · rw [if_neg hd]
        exact (init_session_maps_fields ids {}).2.2
  · exact (init_session_maps_fields ids { last_reset_date := some today }).2.2

/-- Broker bracket-order outcome: prices reported by
`api_client.place_bracket_order` on success, `none` on an error result. -/
structure OrderResult where
  fill_price : ℚ
  target_price : ℚ
  stop_price : ℚ
deriving DecidableEq, Repr

/-- One minute tick as seen by `main.TradingBot._process_entries`, together
with the per-session inputs the method reads from the shared state (the
background loader may update levels and eligibility times between ticks,
so they travel with the tick) and the broker response for each session. -/
structure EntryTick where
  close : ℚ
  now : BotDateTime
  curr_h : Nat
  ref_levels : List (Nat × Option Levels)
  eligible_time : List (Nat × Option BotDateTime)
  order_result : Nat → Option OrderResult

/-- The fields of the shared state that `_process_entries` mutates. -/
structure EntryState where
  trades_taken : List (Nat × SessionTradeState)
  active_trades : List ActiveTrade

/-- The body of the `_process_entries` loop for one configured session:
session-window gate, eligibility gate, loaded-levels gate, breakout signal,
direction gate, broker order; on a filled order the trade is recorded and
the session counter incremented with the direction appended. The final
lookup models the Python subscript `trades_taken[s_id]`, which the
eligibility gate has already proven present. -/
def process_entry_session (tick : EntryTick) (st : EntryState) (sid : Nat)
    (cfg : SessionConfig) : EntryState :=
  if is_in_session_window cfg tick.curr_h = false then st
  else if is_trade_eligible sid st.trades_taken tick.now
      (Option.join (lookupSid tick.eligible_time sid)) = false then st
  else
    match Option.join (lookupSid tick.ref_levels sid) with
    | none => st
    | some lvls =>
      match check_entry_signal tick.close lvls.high lvls.low with
      | none => st
      | some signal =>
        if can_take_direction sid signal.side st.trades_taken = false then st
        else
          match tick.order_result sid with
          | none => st
          | some res =>
            match lookupSid st.trades_taken sid with
            | none => st
            | some st0 =>
              { trades_taken :=
                  updateSid st.trades_taken sid
                    { count := st0.count + 1,
                      directions := st0.directions ++ [signal.side] },
                active_trades := st.active_trades ++
                  [{ side := signal.side, tp := res.target_price,
                     sl := res.stop_price, sess_name := cfg.name,
                     cutoff_h := cfg.end_hour, sess_id := sid,
                     entry_price := res.fill_price }] }

/-- `main.TradingBot._process_entries`: iterate the session table in order. -/
def process_entries (sessions : List (Nat × SessionConfig)) (tick : EntryTick)
    (st : EntryState) : EntryState :=
  match sessions with
  | [] => st
  | (sid, cfg) :: rest =>
    process_entries rest tick (process_entry_session tick st sid cfg)

/-- A whole sequence of minute ticks routed through `_process_entries`. -/
def process_entry_ticks (sessions : List (Nat × SessionConfig)) :
    List EntryTick → EntryState → EntryState
  | [], st => st
  | t :: rest, st => process_entry_ticks sessions rest (process_entries sessions t st)

/-- A positive eligibility verdict requires the stored counter to be
strictly below 2. -/
theorem is_trade_eligible_count_lt (sid : Nat)
    (tt : List (Nat × SessionTradeState)) (now : BotDateTime)
    (et : Option BotDateTime) (st0 : SessionTradeState)
    (he : is_trade_eligible sid tt now et = true)
    (hl : lookupSid tt sid = some st0) : st0.count < 2 := by
  simp only [is_trade_eligible, hl] at he
  by_cases h2 : st0.count ≥ 2
  · rw [if_pos h2] at he
    exact absurd he (by simp)
  · exact lt_of_not_ge h2

/-- A successful lookup exhibits a member of the association list. -/
theorem lookupSid_mem {β : Type} (m : List (Nat × β)) (key : Nat) (v : β)
    (h : lookupSid m key = some v) : (key, v) ∈ m := by
  induction m with
  | nil => exact absurd h (by simp [lookupSid])
  | cons q rest ih =>
    obtain ⟨k, w⟩ := q
    rw [lookupSid] at h
    by_cases hk : k = key
    · rw [if_pos hk] at h
      injection h with h2
      subst hk
      subst h2
      exact List.mem_cons_self _ _
    · rw [if_neg hk] at h
      exact List.mem_cons_of_mem _ (ih h)

/-- `updateSid` preserves a pointwise property of the values when the new
value also satisfies it. -/
theorem updateSid_pointwise {β : Type} (m : List (Nat × β)) (key : Nat)
    (v : β) (P : β → Prop) (hm : ∀ p ∈ m, P p.2) (hv : P v) :
    ∀ p ∈ updateSid m key v, P p.2 := by
  intro p hp
  obtain ⟨q, hq, hpq⟩ := List.mem_map.mp hp
  by_cases h : q.1 = key
  · rw [if_pos h] at hpq
    rw [← hpq]
    exact hv
  · rw [if_neg h] at hpq
    rw [← hpq]
    exact hm q hq

/-- One pass of the per-session entry body preserves the counter invariant
count = length of directions and count ≤ 2. -/
theorem process_entry_session_inv (tick : EntryTick) (st : EntryState)
    (sid : Nat) (cfg : SessionConfig)
    (hinv : ∀ p ∈ st.trades_taken,
      p.2.count = p.2.directions.length ∧ p.2.count ≤ 2) :
    ∀ p ∈ (process_entry_session tick st sid cfg).trades_taken,
      p.2.count = p.2.directions.length ∧ p.2.count ≤ 2 := by
  unfold process_entry_session
  by_cases hwin : is_in_session_window cfg tick.curr_h = false
  · rw [if_pos hwin]
    exact hinv
  · rw [if_neg hwin]
    by_cases helig : is_trade_eligible sid st.trades_taken tick.now
        (Option.join (lookupSid tick.eligible_time sid)) = false
    · rw [if_pos helig]
      exact hinv
    · rw [if_neg helig]
      cases hlv : Option.join (lookupSid tick.ref_levels sid) with
      | none => exact hinv
      | some lvls =>
        simp only
        cases hsig : check_entry_signal tick.close lvls.high lvls.low with
        | none => exact hinv
        | some signal =>
          simp only
          by_cases hdir : can_take_direction sid signal.side st.trades_taken =
              false
          · rw [if_pos hdir]
            exact hinv
          · rw [if_neg hdir]
            cases hres : tick.order_result sid with
            | none => exact hinv
            | some res =>
              simp only
              cases hst0 : lookupSid st.trades_taken sid with
              | none => exact hinv
              | some st0 =>
                simp only
                have hel : is_trade_eligible sid st.trades_taken tick.now
                    (Option.join (lookupSid tick.eligible_time sid)) = true := by
                  rcases Bool.eq_false_or_eq_true (is_trade_eligible sid
                      st.trades_taken tick.now
                      (Option.join (lookupSid tick.eligible_time sid)))
                    with h | h
                  · exact h
                  · exact absurd h helig
                have hlt : st0.count < 2 :=
                  is_trade_eligible_count_lt sid st.trades_taken tick.now
                    (Option.join (lookupSid tick.eligible_time sid)) st0 hel
                    hst0
                have h0 : st0.count = st0.directions.length ∧ st0.count ≤ 2 :=
                  hinv (sid, st0) (lookupSid_mem st.trades_taken sid st0 hst0)
                refine updateSid_pointwise st.trades_taken sid _
                  (fun v => v.count = v.directions.length ∧ v.count ≤ 2)
                  hinv ⟨?_, ?_⟩
                · simp only [List.length_append, List.length_cons,
                    List.length_nil]
                  omega
                · simp only
                  omega

/-- One full `_process_entries` pass preserves the counter invariant. -/
theorem process_entries_inv (tick : EntryTick)
    (sessions : List (Nat × SessionConfig)) :
    ∀ st : EntryState,
      (∀ p ∈ st.trades_taken,
        p.2.count = p.2.directions.length ∧ p.2.count ≤ 2) →
      ∀ p ∈ (process_entries sessions tick st).trades_taken,
        p.2.count = p.2.directions.length ∧ p.2.count ≤ 2 := by
  induction sessions with
  | nil => exact fun st h => h
  | cons s rest ih =>
    intro st h
    exact ih _ (process_entry_session_inv tick st s.1 s.2 h)

/-- C1 -- starting from zeroed per-session counters, any sequence of minute
ticks routed through the `_process_entries` pipeline (gated by
`is_trade_eligible` and `can_take_direction`) keeps every session counter
equal to the length of its directions list and never above 2. -/
theorem trade_counter_invariant (sessions : List (Nat × SessionConfig))
    (ticks : List EntryTick) (init : EntryState)
    (hzero : ∀ p ∈ init.trades_taken,
      p.2.count = 0 ∧ p.2.directions = []) :
    ∀ p ∈ (process_entry_ticks sessions ticks init).trades_taken,
      p.2.count = p.2.directions.length ∧ p.2.count ≤ 2 := by
  have hstart : ∀ p ∈ init.trades_taken,
      p.2.count = p.2.directions.length ∧ p.2.count ≤ 2 := by
    intro p hp
    obtain ⟨h1, h2⟩ := hzero p hp
    rw [h1, h2]
    exact ⟨rfl, by omega⟩
  clear hzero
  induction ticks generalizing init with
  | nil => exact hstart
  | cons t rest ih =>
    exact ih _ (process_entries_inv t sessions init hstart)

/-- A tick at 23:06 local with close 101, with reference levels high 100 and
low 90 loaded for session 22, the eligibility delay elapsed, and a broker
that would fill any order. -/
def tickLondon2306 : EntryTick :=
  { close := 101, now := { days := 20740, sod := 83160 }, curr_h := 23,
    ref_levels := [(22, some { high := 100, low := 90 })],
    eligible_time := [(22, some { days := 20740, sod := 83100 })],
    order_result := fun _ =>
      some { fill_price := 101, target_price := 101 + 1/5,
             stop_price := 101 - 1/2 } }

/-- The same scenario at 23:00 sharp with close 95. -/
def tickLondon2300 : EntryTick :=
  { close := 95, now := { days := 20740, sod := 82800 }, curr_h := 23,
    ref_levels := [(22, some { high := 100, low := 90 })],
    eligible_time := [(22, some { days := 20740, sod := 83100 })],
    order_result := fun _ =>
      some { fill_price := 95, target_price := 95 + 1/5,
             stop_price := 95 - 1/2 } }

/-- The zeroed session-22 entry state before any trade. -/
def londonState0 : EntryState :=
  { trades_taken := [(22, { count := 0, directions := [] })],
    active_trades := [] }

/-- C1 witness: the concrete London scenario run for one tick keeps the
counter invariant. -/
theorem trade_counter_invariant_witness :
    (∀ p ∈ londonState0.trades_taken,
      p.2.count = 0 ∧ p.2.directions = []) ∧
    (∀ p ∈ (process_entry_ticks SESSIONS [tickLondon2306]
        londonState0).trades_taken,
      p.2.count = p.2.directions.length ∧ p.2.count ≤ 2) :=
  ⟨by decide,
    trade_counter_invariant SESSIONS [tickLondon2306] londonState0
      (by decide)⟩

/-- C3 -- with the shipped session table the London window is empty: the
half-open test `23 ≤ h < 23` of `is_in_session_window` holds for no hour, so
the 23:06 breakout tick with close 101 above the loaded high of 100 opens no
trade and leaves the zeroed counter untouched (where the specification
expects a LONG entry and counter count 1, directions [LONG]); the 23:00
tick with close 95 likewise opens no trade. -/
theorem london_empty_window_no_entry :
    (∀ p ∈ SESSIONS, ∀ h : Nat, is_in_session_window p.2 h = false) ∧
    process_entries SESSIONS tickLondon2306 londonState0 = londonState0 ∧
    process_entries SESSIONS tickLondon2300 londonState0 = londonState0 := by
  refine ⟨?_, rfl, rfl⟩
  intro p hp h
  simp only [SESSIONS, List.mem_singleton] at hp
  subst hp
  simp [is_in_session_window]

/-- Observable effects of one pass of the `TradingBot.start` supervisor
loop body: the error count after the pass, whether a numbered error
notification was sent, whether the final STOPPED notification was sent, the
backoff sleep before the next retry (`none` when no retry sleep happens),
and whether the loop terminated. -/
structure SupervisorStep where
  consecutive_errors : Nat
  err_notified : Bool
  stop_notified : Bool
  sleep_before_retry : Option Nat
  halted : Bool
deriving DecidableEq, Repr

/-- One pass of the supervisor loop body in `main.TradingBot.start`,
parameterised by the error count carried in from the previous pass and by
whether the monitor cycle returned cleanly or raised. -/
def supervisor_step (errors : Nat) (clean : Bool) : SupervisorStep :=
  if clean then
    { consecutive_errors := 0, err_notified := false, stop_notified := false,
      sleep_before_retry := none, halted := false }
  else
    let e := errors + 1
    let notified : Bool := e = 1 ∨ e % 3 = 0
    if e ≥ 10 then
      { consecutive_errors := e, err_notified := notified,
        stop_notified := true, sleep_before_retry := none, halted := true }
    else
      { consecutive_errors := e, err_notified := notified,
        stop_notified := false,
        sleep_before_retry := some (min (30 * 2 ^ (e - 1)) 300),
        halted := false }

/-- Terminal observation of the supervisor loop on a finite schedule of
cycle outcomes. -/
inductive SupervisorOutcome where
  | running (errors : Nat)
  | stopped (errors : Nat)
deriving DecidableEq, Repr

/-- Run the supervisor loop over a list of cycle outcomes (`true` = clean
return, `false` = unhandled exception); a halt stops consuming outcomes. -/
def run_supervisor (errors : Nat) : List Bool → SupervisorOutcome
  | [] => .running errors
  | clean :: rest =>
    let s := supervisor_step errors clean
    if s.halted then .stopped s.consecutive_errors
    else run_supervisor s.consecutive_errors rest

/-- Once halted on a prefix, appending further cycle outcomes changes
nothing: the loop never retries after the stop. -/
theorem run_supervisor_append_stopped (l1 : List Bool) :
    ∀ (e : Nat) (l2 : List Bool) (n : Nat),
      run_supervisor e l1 = .stopped n →
      run_supervisor e (l1 ++ l2) = .stopped n := by
  induction l1 with
  | nil =>
    intro e l2 n h
    exact absurd h (by simp [run_supervisor])
  | cons c rest ih =>
    intro e l2 n h
    rw [List.cons_append]
    rw [run_supervisor] at h ⊢
    by_cases hh : (supervisor_step e c).halted = true
    · rw [if_pos hh] at h ⊢
      exact h
    · rw [if_neg hh] at h ⊢
      exact ih _ l2 n h

/-- C8 -- supervisor loop behaviour: a clean cycle zeroes the consecutive
error counter and keeps running; an exception increments it, a numbered
notification goes out exactly on the 1st and every 3rd consecutive error,
the stop notification and permanent halt happen exactly when the count
reaches 10, a retry below the ceiling sleeps min(30 * 2^(errors-1), 300)
seconds, and after a halt no further cycle outcome is ever consumed. -/
theorem supervisor_backoff_characterisation (e : Nat) :
    (supervisor_step e true).consecutive_errors = 0 ∧
    (supervisor_step e true).halted = false ∧
    (supervisor_step e false).consecutive_errors = e + 1 ∧
    ((supervisor_step e false).err_notified = true ↔
      e + 1 = 1 ∨ (e + 1) % 3 = 0) ∧
    ((supervisor_step e false).halted = true ↔ e + 1 ≥ 10) ∧
    ((supervisor_step e false).stop_notified = true ↔ e + 1 ≥ 10) ∧
    (e + 1 < 10 →
      (supervisor_step e false).sleep_before_retry =
        some (min (30 * 2 ^ e) 300)) ∧
    (∀ (l1 l2 : List Bool) (n : Nat),
      run_supervisor 0 l1 = .stopped n →
      run_supervisor 0 (l1 ++ l2) = .stopped n) := by
  refine ⟨rfl, rfl, ?_, ?_, ?_, ?_, ?_,
    fun l1 l2 n h => run_supervisor_append_stopped l1 0 l2 n h⟩
  · by_cases h10 : e + 1 ≥ 10 <;> simp [supervisor_step, h10]
  · by_cases h10 : e + 1 ≥ 10 <;> simp [supervisor_step, h10]
  · by_cases h10 : e + 1 ≥ 10 <;> simp [supervisor_step, h10]
  · by_cases h10 : e + 1 ≥ 10 <;> simp [supervisor_step, h10]
  · intro hlt
    have h10 : ¬ e + 1 ≥ 10 := by omega
    simp [supervisor_step, h10]

/-- C8 witness: from a zero error count, one exception gives count 1 with a
30-second backoff sleep; ten straight exceptions halt the loop at count 10
and a subsequent clean cycle is never consumed. -/
theorem supervisor_backoff_witness :
    0 + 1 < 10 ∧
    (supervisor_step 0 false).sleep_before_retry =
      some (min (30 * 2 ^ 0) 300) ∧
    run_supervisor 0 (List.replicate 10 false) = .stopped 10 ∧
    run_supervisor 0 (List.replicate 10 false ++ [true]) = .stopped 10 :=
  ⟨by decide,
    (supervisor_backoff_characterisation 0).2.2.2.2.2.2.1 (by decide),
    by decide,
    (supervisor_backoff_characterisation 0).2.2.2.2.2.2.2
      (List.replicate 10 false) [true] 10 (by decide)⟩

/-- `main.TradingBot._run_monitor_cycle` scanning decision: true exactly
when some configured session window contains the current hour and that
session still has fewer than 2 trades (the absent-counter arm models the
`trades_taken[s_id]` subscript, which presupposes presence). -/
def should_be_scanning (sessions : List (Nat × SessionConfig))
    (trades_taken : List (Nat × SessionTradeState)) (curr_h : Nat) : Bool :=
  sessions.any fun p =>
    is_in_session_window p.2 curr_h &&
      (match lookupSid trades_taken p.1 with
       | some st => st.count < 2
       | none => false)

/-- `main.TradingBot._wait_until_next_event`: on a Friday from 14:00 local
or on a Saturday, sleep until next Sunday 15:00; otherwise sleep until the
earliest of each session's next start-hour instant (today if still ahead,
else tomorrow) and the next 23:59 reset instant, plus a 30 second margin.
Instants are compared and subtracted on the absolute-seconds timeline. -/
def wait_until_next_event (sessions : List (Nat × SessionConfig))
    (now : BotDateTime) : ℤ :=
  if (now.weekday = 4 ∧ now.hour ≥ 14) ∨ now.weekday = 5 then
    (BotDateTime.mk (now.days + (6 - now.weekday)) (15 * 3600)).toSec -
      now.toSec
  else
    let session_events := sessions.map fun p =>
      if (BotDateTime.mk now.days (p.2.start_hour * 3600)).toSec ≤ now.toSec
      then BotDateTime.mk (now.days + 1) (p.2.start_hour * 3600)
      else BotDateTime.mk now.days (p.2.start_hour * 3600)
    let midnight_reset :=
      if (BotDateTime.mk now.days (23 * 3600 + 59 * 60)).toSec ≤ now.toSec
      then BotDateTime.mk (now.days + 1) (23 * 3600 + 59 * 60)
      else BotDateTime.mk now.days (23 * 3600 + 59 * 60)
    (session_events.map BotDateTime.toSec).foldr min midnight_reset.toSec -
      now.toSec + 30

/-- Modelled from the spec: `next_wake_delay(now)` returns the delay to the
weekend opening instant (next Sunday 15:00 local) when now lies in the
no-trading weekend span, and otherwise the minimum over each session of the
delay to its next start-hour occurrence (today if not yet passed, else
tomorrow) and the delay to the next 23:59 reset instant, plus a fixed
30-second margin. -/
def spec_next_wake_delay (sessions : List (Nat × SessionConfig))
    (now : BotDateTime) : ℤ :=
  if (now.weekday = 4 ∧ now.hour ≥ 14) ∨ now.weekday = 5 then
    ((6 - now.weekday : Nat) : ℤ) * 86400 + 15 * 3600 - now.sod
  else
    let session_delays := sessions.map fun p =>
      if (now.sod : ℤ) < (p.2.start_hour : ℤ) * 3600 then
        (p.2.start_hour : ℤ) * 3600 - now.sod
      else (p.2.start_hour : ℤ) * 3600 + 86400 - now.sod
    let reset_delay : ℤ :=
      if (now.sod : ℤ) < 23 * 3600 + 59 * 60 then
        23 * 3600 + 59 * 60 - now.sod
      else 23 * 3600 + 59 * 60 + 86400 - now.sod
    session_delays.foldr min reset_delay + 30

/-- Subtracting a constant commutes with the running minimum of a list. -/
theorem foldr_min_sub (l : List ℤ) (b c : ℤ) :
    l.foldr min b - c = (l.map (fun x => x - c)).foldr min (b - c) := by
  induction l with
  | nil => rfl
  | cons x rest ih =>
    simp only [List.foldr_cons, List.map_cons]
    rw [← ih, min_sub_sub_right]

/-- C9 -- when no session window contains the current hour,
`should_be_scanning` is false whatever the counters hold, and the
code's next-wake delay agrees with the spec formula: weekend span gives the
delay to Sunday 15:00, otherwise the minimum over per-session next
start-hour delays and the 23:59 reset delay, plus the 30-second margin. -/
theorem scheduler_sleep_decision (sessions : List (Nat × SessionConfig))
    (trades_taken : List (Nat × SessionTradeState)) (now : BotDateTime)
    (hwin : ∀ p ∈ sessions, is_in_session_window p.2 now.hour = false) :
    should_be_scanning sessions trades_taken now.hour = false ∧
    wait_until_next_event sessions now = spec_next_wake_delay sessions now := by
  constructor
  · simp only [should_be_scanning, List.any_eq_false]
    intro p hp
    simp [hwin p hp]
  · by_cases hwk : (now.weekday = 4 ∧ now.hour ≥ 14) ∨ now.weekday = 5
    · simp only [wait_until_next_event, spec_next_wake_delay, if_pos hwk,
        BotDateTime.toSec]
      push_cast
      omega
    · simp only [wait_until_next_event, spec_next_wake_delay, if_neg hwk]
      rw [foldr_min_sub, List.map_map, List.map_map]
      have hbase :
          ((if (BotDateTime.mk now.days (23 * 3600 + 59 * 60)).toSec ≤
                now.toSec
            then BotDateTime.mk (now.days + 1) (23 * 3600 + 59 * 60)
            else BotDateTime.mk now.days (23 * 3600 + 59 * 60)).toSec -
            now.toSec) =
          (if (now.sod : ℤ) < 23 * 3600 + 59 * 60 then
            23 * 3600 + 59 * 60 - (now.sod : ℤ)
          else 23 * 3600 + 59 * 60 + 86400 - (now.sod : ℤ)) := by
        simp only [BotDateTime.toSec]
        split_ifs with h1 h2 h2 <;> push_cast at * <;> omega
      have hmap :
          List.map (((fun x => x - now.toSec) ∘ BotDateTime.toSec) ∘
            fun p : Nat × SessionConfig =>
              if (BotDateTime.mk now.days (p.2.start_hour * 3600)).toSec ≤
                  now.toSec
              then BotDateTime.mk (now.days + 1) (p.2.start_hour * 3600)
              else BotDateTime.mk now.days (p.2.start_hour * 3600)) sessions =
          List.map (fun p : Nat × SessionConfig =>
            if (now.sod : ℤ) < (p.2.start_hour : ℤ) * 3600 then
              (p.2.start_hour : ℤ) * 3600 - (now.sod : ℤ)
            else (p.2.start_hour : ℤ) * 3600 + 86400 - (now.sod : ℤ))
            sessions := by
        apply List.map_congr_left
        intro p hp
        simp only [Function.comp_apply, BotDateTime.toSec]
        split_ifs with h1 h2 h2 <;> push_cast at * <;> omega
      rw [hmap, hbase]

/-- C9 witness: a Thursday at 10:00 local, outside the (empty) London
window, with a zeroed counter: no scanning, and the code delay equals the
spec delay. -/
theorem scheduler_sleep_decision_witness :
    (∀ p ∈ SESSIONS,
      is_in_session_window p.2 (BotDateTime.mk 20741 36000).hour = false) ∧
    (should_be_scanning SESSIONS
        [(22, { count := 0, directions := [] })]
        (BotDateTime.mk 20741 36000).hour = false ∧
      wait_until_next_event SESSIONS (BotDateTime.mk 20741 36000) =
        spec_next_wake_delay SESSIONS (BotDateTime.mk 20741 36000)) :=
  ⟨by decide,
    scheduler_sleep_decision SESSIONS
      [(22, { count := 0, directions := [] })]
      (BotDateTime.mk 20741 36000) (by decide)⟩
